import Mathlib

/-!
Verification of the Unit Converter application (src/app.py).

The app is a single-file Streamlit program.  Its core is a unit registry
(one factor dictionary per linear category), a conversion engine (generic
factor-based conversion plus a special-cased affine temperature dispatch),
an input parser (Python `float` applied after stripping whitespace and
removing commas), a result formatter (fixed-point rendering with trailing
zeros stripped), and session-state handling (auto-clear on input change,
reset button).

Embedding conventions:
* Python floats are modelled as exact rationals (ℚ).  Decimal literals in
  the source are exact at this level; IEEE-754 bit-level rounding is
  outside the model.
* Python dicts of factors become association lists `List (String × ℚ)` in
  the source's insertion order; `dict[key]` becomes `List.lookup`, with a
  failed lookup (Python `KeyError`) modelled as `Option.none`.
* Python exceptions raised by `float(...)` are modelled by `Option.none`.
* `st.session_state` becomes an explicit `SessionState` record, and the
  source's state-handling functions become pure state transformers.
-/

namespace UnitConverter

/-- Length factor dictionary (base: meter), app.py `LENGTH_TO_M`. -/
def LENGTH_TO_M : List (String × ℚ) := [
  ("Meter (m)", 1),
  ("Kilometer (km)", 1000),
  ("Centimeter (cm)", 0.01),
  ("Millimeter (mm)", 0.001),
  ("Inch (in)", 0.0254),
  ("Foot (ft)", 0.3048),
  ("Yard (yd)", 0.9144),
  ("Mile (mi)", 1609.344)]

/-- Mass factor dictionary (base: kilogram), app.py `MASS_TO_KG`. -/
def MASS_TO_KG : List (String × ℚ) := [
  ("Kilogram (kg)", 1),
  ("Gram (g)", 0.001),
  ("Milligram (mg)", 1e-6),
  ("Pound (lb)", 0.45359237),
  ("Ounce (oz)", 0.028349523125),
  ("Tonne (t)", 1000)]

/-- Time factor dictionary (base: second), app.py `TIME_TO_S`. -/
def TIME_TO_S : List (String × ℚ) := [
  ("Second (s)", 1),
  ("Millisecond (ms)", 1e-3),
  ("Minute (min)", 60),
  ("Hour (h)", 3600),
  ("Day (d)", 86400),
  ("Week (wk)", 604800)]

/-- Area factor dictionary (base: square meter), app.py `AREA_TO_M2`. -/
def AREA_TO_M2 : List (String × ℚ) := [
  ("Square meter (m²)", 1),
  ("Square kilometer (km²)", 1e6),
  ("Square mile (mi²)", 2.589988110336e6),
  ("Acre", 4046.8564224),
  ("Hectare (ha)", 10000),
  ("Square foot (ft²)", 0.09290304)]

/-- Volume factor dictionary (base: cubic meter), app.py `VOLUME_TO_M3`. -/
def VOLUME_TO_M3 : List (String × ℚ) := [
  ("Cubic meter (m³)", 1),
  ("Litre (L)", 0.001),
  ("Millilitre (mL)", 1e-6),
  ("Gallon (gal, US)", 0.003785411784),
  ("Pint (pt, US)", 0.000473176473)]

/-- Speed factor dictionary (base: meter/second), app.py `SPEED_TO_MS`. -/
def SPEED_TO_MS : List (String × ℚ) := [
  ("Meter/second (m/s)", 1),
  ("Kilometer/hour (km/h)", 1000 / 3600),
  ("Mile/hour (mph)", 1609.344 / 3600),
  ("Knot (kt)", 0.514444444)]

/-- Energy factor dictionary (base: joule), app.py `ENERGY_TO_J`. -/
def ENERGY_TO_J : List (String × ℚ) := [
  ("Joule (J)", 1),
  ("Kilojoule (kJ)", 1000),
  ("Calorie (cal)", 4.184),
  ("Kilocalorie (kcal)", 4184),
  ("Watt-hour (Wh)", 3600),
  ("Kilowatt-hour (kWh)", 3.6e6)]

/-- Power factor dictionary (base: watt), app.py `POWER_TO_W`. -/
def POWER_TO_W : List (String × ℚ) := [
  ("Watt (W)", 1),
  ("Kilowatt (kW)", 1000),
  ("Megawatt (MW)", 1e6),
  ("Horsepower (hp)", 745.699872)]

/-- Pressure factor dictionary (base: pascal), app.py `PRESSURE_TO_PA`. -/
def PRESSURE_TO_PA : List (String × ℚ) := [
  ("Pascal (Pa)", 1),
  ("Bar", 1e5),
  ("Atmosphere (atm)", 101325),
  ("PSI (psi)", 6894.757293168),
  ("Torr (Torr)", 133.3223684211)]

/-- Density factor dictionary (base: kg/m³), app.py `DENSITY_TO_KGM3`. -/
def DENSITY_TO_KGM3 : List (String × ℚ) := [
  ("Kilogram/m³ (kg/m³)", 1),
  ("Gram/cm³ (g/cm³)", 1000),
  ("Pound/ft³ (lb/ft³)", 16.018463373961)]

/-- Force factor dictionary (base: newton), app.py `FORCE_TO_N`. -/
def FORCE_TO_N : List (String × ℚ) := [
  ("Newton (N)", 1),
  ("Kilonewton (kN)", 1000),
  ("Dyne (dyn)", 1e-5),
  ("Pound-force (lbf)", 4.4482216152605)]

/-- Data-storage factor dictionary (base: byte, binary multiples),
app.py `DATA_TO_B`. -/
def DATA_TO_B : List (String × ℚ) := [
  ("Bit (b)", 1 / 8),
  ("Byte (B)", 1),
  ("Kilobyte (KB)", 1024),
  ("Megabyte (MB)", 1024 ^ 2),
  ("Gigabyte (GB)", 1024 ^ 3),
  ("Terabyte (TB)", 1024 ^ 4)]

/-- Temperature: Celsius to Fahrenheit, app.py `celsius_to_fahrenheit`. -/
def celsius_to_fahrenheit (c : ℚ) : ℚ := (c * 9 / 5) + 32

/-- Temperature: Fahrenheit to Celsius, app.py `fahrenheit_to_celsius`. -/
def fahrenheit_to_celsius (f : ℚ) : ℚ := (f - 32) * 5 / 9

/-- Temperature: Celsius to Kelvin, app.py `celsius_to_kelvin`. -/
def celsius_to_kelvin (c : ℚ) : ℚ := c + 273.15

/-- Temperature: Kelvin to Celsius, app.py `kelvin_to_celsius`. -/
def kelvin_to_celsius (k : ℚ) : ℚ := k - 273.15

/-- Temperature: Fahrenheit to Kelvin, app.py `fahrenheit_to_kelvin`. -/
def fahrenheit_to_kelvin (f : ℚ) : ℚ := (f - 32) * 5 / 9 + 273.15

/-- Temperature: Kelvin to Fahrenheit, app.py `kelvin_to_fahrenheit`. -/
def kelvin_to_fahrenheit (k : ℚ) : ℚ := (k - 273.15) * 9 / 5 + 32

/-- Python dict access `factor_map[unit]` on an association list: the value
of the first matching key, or `none` (a `KeyError`) when absent. -/
def lookupFactor (m : List (String × ℚ)) (u : String) : Option ℚ :=
  match m with
  | [] => none
  | (k, v) :: es => if k = u then some v else lookupFactor es u

/-- Generic converter helper, app.py `convert_via_factors`: normalize to the
base unit with the from-factor, then divide by the to-factor.  A missing
dictionary key (Python `KeyError`) is `none`. -/
def convert_via_factors (value : ℚ) (from_unit to_unit : String)
    (factor_map : List (String × ℚ)) : Option ℚ :=
  match lookupFactor factor_map from_unit, lookupFactor factor_map to_unit with
  | some ff, some ft => some (value * ff / ft)
  | _, _ => none

/-- Python `str.lower` as used on the unit labels (ASCII lowering). -/
def strLower (s : String) : String := String.mk (s.toList.map Char.toLower)

/-- Prefix test on character lists (helper for the substring test). -/
def isPrefixOfChars : List Char → List Char → Bool
  | [], _ => true
  | _ :: _, [] => false
  | a :: as, b :: bs => a == b && isPrefixOfChars as bs

/-- Infix (substring) test on character lists. -/
def isInfixOfChars : List Char → List Char → Bool
  | pat, [] => pat.isEmpty
  | pat, b :: bs => isPrefixOfChars pat (b :: bs) || isInfixOfChars pat bs

/-- Python's substring test `sub in s`. -/
def strContains (s sub : String) : Bool := isInfixOfChars sub.toList s.toList

/-- Temperature dispatch, app.py lines 301-327: keyword matching on the
lowercased unit labels selects one of the six affine transforms, with an
identity fallback for every other combination. -/
def convert_temperature (value : ℚ) (from_unit to_unit : String) : ℚ :=
  let f_low := strLower from_unit
  let t_low := strLower to_unit
  if strContains f_low "celsius" && strContains t_low "fahrenheit" then
    celsius_to_fahrenheit value
  else if strContains f_low "fahrenheit" && strContains t_low "celsius" then
    fahrenheit_to_celsius value
  else if strContains f_low "celsius" && strContains t_low "kelvin" then
    celsius_to_kelvin value
  else if strContains f_low "kelvin" && strContains t_low "celsius" then
    kelvin_to_celsius value
  else if strContains f_low "fahrenheit" && strContains t_low "kelvin" then
    fahrenheit_to_kelvin value
  else if strContains f_low "kelvin" && strContains t_low "fahrenheit" then
    kelvin_to_fahrenheit value
  else
    value

/-- The if/elif category dispatch of app.py lines 300-383: temperature goes
to the affine dispatcher (which never fails), every other known category
goes through `convert_via_factors` with its factor dictionary, and an
unknown category produces no result. -/
def convert (category : String) (value : ℚ) (from_unit to_unit : String) :
    Option ℚ :=
  if category = "temperature" then
    some (convert_temperature value from_unit to_unit)
  else if category = "length" then
    convert_via_factors value from_unit to_unit LENGTH_TO_M
  else if category = "mass" then
    convert_via_factors value from_unit to_unit MASS_TO_KG
  else if category = "time" then
    convert_via_factors value from_unit to_unit TIME_TO_S
  else if category = "area" then
    convert_via_factors value from_unit to_unit AREA_TO_M2
  else if category = "volume" then
    convert_via_factors value from_unit to_unit VOLUME_TO_M3
  else if category = "speed" then
    convert_via_factors value from_unit to_unit SPEED_TO_MS
  else if category = "energy" then
    convert_via_factors value from_unit to_unit ENERGY_TO_J
  else if category = "power" then
    convert_via_factors value from_unit to_unit POWER_TO_W
  else if category = "pressure" then
    convert_via_factors value from_unit to_unit PRESSURE_TO_PA
  else if category = "density" then
    convert_via_factors value from_unit to_unit DENSITY_TO_KGM3
  else if category = "force" then
    convert_via_factors value from_unit to_unit FORCE_TO_N
  else if category = "data" then
    convert_via_factors value from_unit to_unit DATA_TO_B
  else
    none

/-- Units list construction, app.py lines 246-274: temperature has a
hard-coded three-label list; every factor category lists its dictionary's
keys in insertion order; anything else gets an empty list. -/
def unitsFor (category : String) : List String :=
  if category = "temperature" then
    ["Celsius (°C)", "Fahrenheit (°F)", "Kelvin (K)"]
  else if category = "length" then LENGTH_TO_M.map Prod.fst
  else if category = "mass" then MASS_TO_KG.map Prod.fst
  else if category = "volume" then VOLUME_TO_M3.map Prod.fst
  else if category = "time" then TIME_TO_S.map Prod.fst
  else if category = "speed" then SPEED_TO_MS.map Prod.fst
  else if category = "area" then AREA_TO_M2.map Prod.fst
  else if category = "energy" then ENERGY_TO_J.map Prod.fst
  else if category = "power" then POWER_TO_W.map Prod.fst
  else if category = "pressure" then PRESSURE_TO_PA.map Prod.fst
  else if category = "density" then DENSITY_TO_KGM3.map Prod.fst
  else if category = "force" then FORCE_TO_N.map Prod.fst
  else if category = "data" then DATA_TO_B.map Prod.fst
  else []

/-- The twelve linear (factor-based) category tags, in the dispatch order of
the source's if/elif chain. -/
def linearCategories : List String :=
  ["length", "mass", "time", "area", "volume", "speed", "energy", "power",
   "pressure", "density", "force", "data"]

/-- All thirteen category tags of the app (values of the `CATEGORIES` map). -/
def allCategories : List String := "temperature" :: linearCategories

/-- Factor table selector for the linear categories (model plumbing tying
each category tag to its source dictionary, mirroring the dispatch). -/
def factorTableOf (category : String) : List (String × ℚ) :=
  if category = "length" then LENGTH_TO_M
  else if category = "mass" then MASS_TO_KG
  else if category = "time" then TIME_TO_S
  else if category = "area" then AREA_TO_M2
  else if category = "volume" then VOLUME_TO_M3
  else if category = "speed" then SPEED_TO_MS
  else if category = "energy" then ENERGY_TO_J
  else if category = "power" then POWER_TO_W
  else if category = "pressure" then PRESSURE_TO_PA
  else if category = "density" then DENSITY_TO_KGM3
  else if category = "force" then FORCE_TO_N
  else if category = "data" then DATA_TO_B
  else []

/-- Python ASCII whitespace characters stripped by `str.strip()` and ignored
by `float()`. -/
def isPySpace (c : Char) : Bool :=
  c == ' ' || c == '\t' || c == '\n' || c == '\r' || c == '\x0b' || c == '\x0c'

/-- Strip leading and trailing whitespace from a character list (Python
`str.strip()`). -/
def trimChars (cs : List Char) : List Char :=
  ((cs.dropWhile isPySpace).reverse.dropWhile isPySpace).reverse

/-- Maximal run of decimal digits, allowing an underscore only directly
between two digits, as CPython's float grammar does.  `acc` holds the digits
consumed so far; the second component is the unconsumed remainder. -/
def grabDigits : List Char → List Char → List Char × List Char
  | acc, [] => (acc, [])
  | acc, [c] => if c.isDigit then (acc ++ [c], []) else (acc, [c])
  | acc, c :: d :: rest =>
    if c.isDigit then grabDigits (acc ++ [c]) (d :: rest)
    else if c == '_' && d.isDigit && !acc.isEmpty then
      grabDigits (acc ++ [d]) rest
    else (acc, c :: d :: rest)

/-- Numeric value of a list of decimal digit characters. -/
def digitsToNat (ds : List Char) : ℕ :=
  ds.foldl (fun n c => 10 * n + (c.toNat - 48)) 0

/-- Optional leading sign; returns whether a minus sign was seen. -/
def parseSignChars : List Char → Bool × List Char
  | '+' :: rest => (false, rest)
  | '-' :: rest => (true, rest)
  | cs => (false, cs)

/-- Outcome of CPython's float-literal grammar before numeric evaluation:
a finite literal is (sign, all mantissa digits, number of fraction digits,
exponent); the words inf/infinity/nan give non-finite outcomes. -/
inductive PyParsed where
  | fin (neg : Bool) (digits scale : ℕ) (ex : ℤ)
  | inf
  | negInf
  | nan
deriving DecidableEq

/-- Mantissa of a float literal: digits, an optional dot, more digits, with
at least one digit in total.  Returns (all digits, fraction length, rest). -/
def parseMantissa (cs : List Char) : Option (ℕ × ℕ × List Char) :=
  let (ip, rest) := grabDigits [] cs
  match rest with
  | '.' :: rest2 =>
    let (fp, rest3) := grabDigits [] rest2
    if ip.isEmpty && fp.isEmpty then none
    else some (digitsToNat (ip ++ fp), fp.length, rest3)
  | _ => if ip.isEmpty then none else some (digitsToNat ip, 0, rest)

/-- CPython float grammar on a whitespace-free character list: optional
sign, then the case-insensitive words inf/infinity/nan or a decimal or
scientific literal; the whole input must be consumed. -/
def pyFloatCore (cs : List Char) : Option PyParsed :=
  let (neg, cs1) := parseSignChars cs
  let low := cs1.map Char.toLower
  if low = "inf".toList ∨ low = "infinity".toList then
    some (if neg then .negInf else .inf)
  else if low = "nan".toList then some .nan
  else
    match parseMantissa cs1 with
    | none => none
    | some (digits, scale, rest) =>
      match rest with
      | [] => some (.fin neg digits scale 0)
      | e :: rest2 =>
        if e == 'e' || e == 'E' then
          let (eneg, rest3) := parseSignChars rest2
          let (ed, rest4) := grabDigits [] rest3
          if ed.isEmpty || !rest4.isEmpty then none
          else
            some (.fin neg digits scale
              (if eneg then -(digitsToNat ed : ℤ) else (digitsToNat ed : ℤ)))
        else none

/-- Result of Python `float(...)`: a finite rational or a non-finite value.
Python raises `ValueError` (here: `none`) only on syntax errors — the words
inf/infinity/nan are accepted and produce non-finite floats. -/
inductive PyFloat where
  | finite (q : ℚ)
  | inf
  | negInf
  | nan
deriving DecidableEq

/-- Numeric interpretation of a parsed float literal. -/
def interpretParsed : PyParsed → PyFloat
  | .fin neg digits scale ex =>
    .finite ((if neg then -1 else 1) * (digits : ℚ) / 10 ^ scale *
      (10 : ℚ) ^ ex)
  | .inf => .inf
  | .negInf => .negInf
  | .nan => .nan

/-- Syntactic part of the app's raw-value parsing, app.py lines 289-291:
`raw_value.strip().replace(",", "")` followed by the grammar of `float`
(which itself ignores surrounding whitespace). -/
def pyFloatRaw (raw : String) : Option PyParsed :=
  let val_str := (trimChars raw.toList).filter (fun c => c != ',')
  pyFloatCore (trimChars val_str)

/-- The app's raw-value parsing, app.py lines 289-291: strip surrounding
whitespace, delete every comma, then apply Python `float`; a `ValueError`
(the `except` branch, which shows the invalid-number message) is `none`. -/
def parseValue (raw : String) : Option PyFloat :=
  (pyFloatRaw raw).map interpretParsed

/-- Round a rational to the nearest integer, ties to even — the rounding
used by Python's `round` and by `format` on the (here exact) value. -/
def roundHalfEvenInt (q : ℚ) : ℤ :=
  let f := Int.floor q
  let r := q - f
  if r < 1 / 2 then f
  else if 1 / 2 < r then f + 1
  else if f % 2 = 0 then f
  else f + 1

/-- Decimal digit characters of a natural number, most significant first
(fuel-based so that it is structurally recursive). -/
def natCharsAux : ℕ → ℕ → List Char
  | 0, _ => []
  | _ + 1, 0 => []
  | fuel + 1, n + 1 =>
    natCharsAux fuel ((n + 1) / 10) ++ [Nat.digitChar ((n + 1) % 10)]

/-- Decimal rendering of a natural number. -/
def natChars (n : ℕ) : List Char := if n = 0 then ['0'] else natCharsAux n n

/-- Left-pad a digit list with zeros to width `p`. -/
def padZeros (p : ℕ) (l : List Char) : List Char :=
  List.replicate (p - l.length) '0' ++ l

/-- Remove the trailing run of the character `c` (Python `str.rstrip`). -/
def rstripC (c : Char) : List Char → List Char
  | [] => []
  | a :: rest =>
    let r := rstripC c rest
    if r.isEmpty && a == c then [] else a :: r

/-- Fixed-point rendering of the scaled integer
`roundHalfEvenInt (x * 10 ^ p)` with `p` decimal places — the characters
produced by Python's fixed-point format (`"\x7b:.8f\x7d".format`), which
never switches to exponential notation. -/
def fixedChars (scaled : ℤ) (p : ℕ) : List Char :=
  let a := scaled.natAbs
  let sign : List Char := if scaled < 0 then ['-'] else []
  if p = 0 then sign ++ natChars a
  else sign ++ natChars (a / 10 ^ p) ++ '.' :: padZeros p (natChars (a % 10 ^ p))

/-- The trimming step of `format_number`, app.py lines 222-223: if a dot is
present, strip trailing zeros and then a trailing dot. -/
def stripTrailing (fmt : List Char) : List Char :=
  if fmt.contains '.' then rstripC '.' (rstripC '0' fmt) else fmt

/-- Character-level body of `format_number`, app.py lines 219-224, applied
to the scaled integer: fixed-point rendering, then trimming. -/
def formatNumberL (scaled : ℤ) (p : ℕ) : List Char :=
  stripTrailing (fixedChars scaled p)

/-- The app's `format_number`: round to `precision` decimal digits, render
fixed-point, and trim trailing zeros (and a then-trailing dot). -/
def format_number (x : ℚ) (precision : ℕ := 8) : String :=
  String.mk (formatNumberL (roundHalfEvenInt (x * 10 ^ precision)) precision)

/-- The Streamlit session state the app manipulates: stored result line,
formula caption, and the signature of the inputs that last touched them. -/
structure SessionState where
  result : String
  formula : String
  last_input_signature : Option String
deriving DecidableEq

/-- app.py `clear_result_on_input_change`: if the stored signature differs
from the current one, clear result and formula and remember the new
signature. -/
def clear_result_on_input_change (s : SessionState) (signature : String) :
    SessionState :=
  if s.last_input_signature ≠ some signature then
    { result := "", formula := "", last_input_signature := some signature }
  else s

/-- The Reset-button handler, app.py lines 238-242: clear result, formula
and the remembered signature. -/
def resetSession (_s : SessionState) : SessionState :=
  { result := "", formula := "", last_input_signature := none }

/-- The input signature string built at app.py line 281. -/
def input_signature (category from_unit to_unit raw_value : String) : String :=
  category ++ "|" ++ from_unit ++ "|" ++ to_unit ++ "|" ++ raw_value

/-- The output area, app.py lines 391-409: a result is displayed (with its
formula caption) only when the stored result string is non-empty. -/
def currentDisplay (s : SessionState) : Option (String × String) :=
  if s.result = "" then none else some (s.result, s.formula)

/-- Factor sequences of the registry table in spec §4.1, one list per
linear category, in the spec's row order.  Stated from the spec's words
("Length: m=1, km=1000, cm=0.01, mm=0.001, in=0.0254, ft=0.3048,
yd=0.9144, mi=1609.344", and so on) for comparison with the source's
factor dictionaries. -/
def spec_section41_factors : List (String × List ℚ) := [
  ("length", [1, 1000, 0.01, 0.001, 0.0254, 0.3048, 0.9144, 1609.344]),
  ("mass", [1, 0.001, 1e-6, 0.45359237, 0.028349523125, 1000]),
  ("time", [1, 1e-3, 60, 3600, 86400, 604800]),
  ("area", [1, 1e6, 2.589988110336e6, 4046.8564224, 10000, 0.09290304]),
  ("volume", [1, 0.001, 1e-6, 0.003785411784, 0.000473176473]),
  ("speed", [1, 1000 / 3600, 1609.344 / 3600, 0.514444444]),
  ("energy", [1, 1000, 4.184, 4184, 3600, 3.6e6]),
  ("power", [1, 1000, 1e6, 745.699872]),
  ("pressure", [1, 1e5, 101325, 6894.757293168, 133.3223684211]),
  ("density", [1, 1000, 16.018463373961]),
  ("force", [1, 1000, 1e-5, 4.4482216152605]),
  ("data", [1 / 8, 1, 1024, 1024 ^ 2, 1024 ^ 3, 1024 ^ 4])]

/-- Well-formedness of a formatted number string: only digits, a minus sign
and a decimal point (never exponential notation); no trailing decimal
point; and no trailing zero when a decimal point is present. -/
def wellFormattedOutput (s : String) : Bool :=
  s.toList.all (fun c => c.isDigit || c == '-' || c == '.') &&
  !(s.toList.getLast? == some '.') &&
  (!(s.toList.contains '.') || !(s.toList.getLast? == some '0'))

section Lemmas

lemma lookupFactor_mem {m : List (String × ℚ)} {u : String} {f : ℚ}
    (h : lookupFactor m u = some f) : (u, f) ∈ m := by
  induction m with
  | nil => simp [lookupFactor] at h
  | cons p t ih =>
    obtain ⟨k, v⟩ := p
    simp only [lookupFactor] at h
    split at h
    · rename_i hk
      subst hk
      obtain rfl : v = f := Option.some.inj h
      exact List.mem_cons_self _ _
    · exact List.mem_cons_of_mem _ (ih h)

lemma lookupFactor_of_mem_keys {m : List (String × ℚ)} {u : String}
    (h : u ∈ m.map Prod.fst) : ∃ f, lookupFactor m u = some f := by
  induction m with
  | nil => simp at h
  | cons p t ih =>
    obtain ⟨k, v⟩ := p
    rcases List.mem_cons.mp h with h | h
    · exact ⟨v, by simp [lookupFactor, h]⟩
    · by_cases hk : k = u
      · exact ⟨v, by simp [lookupFactor, hk]⟩
      · obtain ⟨f, hf⟩ := ih h
        exact ⟨f, by simp [lookupFactor, hk, hf]⟩

lemma convert_via_factors_eq {m : List (String × ℚ)} {u1 u2 : String}
    {f1 f2 : ℚ} (h1 : lookupFactor m u1 = some f1)
    (h2 : lookupFactor m u2 = some f2) (x : ℚ) :
    convert_via_factors x u1 u2 m = some (x * f1 / f2) := by
  unfold convert_via_factors
  rw [h1, h2]

lemma convert_via_factors_self {m : List (String × ℚ)}
    (hpos : ∀ p ∈ m, (0 : ℚ) < p.2) {u : String}
    (hu : u ∈ m.map Prod.fst) (x : ℚ) :
    convert_via_factors x u u m = some x := by
  obtain ⟨f, hf⟩ := lookupFactor_of_mem_keys hu
  have hf0 : f ≠ 0 := ne_of_gt (hpos (u, f) (lookupFactor_mem hf))
  rw [convert_via_factors_eq hf hf x, mul_div_cancel_right₀ x hf0]

lemma convert_linear_eq {category : String} (hc : category ∈ linearCategories)
    (x : ℚ) (u1 u2 : String) :
    convert category x u1 u2 =
      convert_via_factors x u1 u2 (factorTableOf category) := by
  fin_cases hc <;> rfl

lemma LENGTH_pos : ∀ p ∈ LENGTH_TO_M, (0 : ℚ) < p.2 := by
  intro p hp; fin_cases hp <;> norm_num

lemma MASS_pos : ∀ p ∈ MASS_TO_KG, (0 : ℚ) < p.2 := by
  intro p hp; fin_cases hp <;> norm_num

lemma TIME_pos : ∀ p ∈ TIME_TO_S, (0 : ℚ) < p.2 := by
  intro p hp; fin_cases hp <;> norm_num

lemma AREA_pos : ∀ p ∈ AREA_TO_M2, (0 : ℚ) < p.2 := by
  intro p hp; fin_cases hp <;> norm_num

lemma VOLUME_pos : ∀ p ∈ VOLUME_TO_M3, (0 : ℚ) < p.2 := by
  intro p hp; fin_cases hp <;> norm_num

lemma SPEED_pos : ∀ p ∈ SPEED_TO_MS, (0 : ℚ) < p.2 := by
  intro p hp; fin_cases hp <;> norm_num

lemma ENERGY_pos : ∀ p ∈ ENERGY_TO_J, (0 : ℚ) < p.2 := by
  intro p hp; fin_cases hp <;> norm_num

lemma POWER_pos : ∀ p ∈ POWER_TO_W, (0 : ℚ) < p.2 := by
  intro p hp; fin_cases hp <;> norm_num

lemma PRESSURE_pos : ∀ p ∈ PRESSURE_TO_PA, (0 : ℚ) < p.2 := by
  intro p hp; fin_cases hp <;> norm_num

lemma DENSITY_pos : ∀ p ∈ DENSITY_TO_KGM3, (0 : ℚ) < p.2 := by
  intro p hp; fin_cases hp <;> norm_num

lemma FORCE_pos : ∀ p ∈ FORCE_TO_N, (0 : ℚ) < p.2 := by
  intro p hp; fin_cases hp <;> norm_num

lemma DATA_pos : ∀ p ∈ DATA_TO_B, (0 : ℚ) < p.2 := by
  intro p hp; fin_cases hp <;> norm_num

lemma factorTable_pos : ∀ category ∈ linearCategories,
    ∀ p ∈ factorTableOf category, (0 : ℚ) < p.2 := by
  intro category hc
  fin_cases hc
  · exact LENGTH_pos
  · exact MASS_pos
  · exact TIME_pos
  · exact AREA_pos
  · exact VOLUME_pos
  · exact SPEED_pos
  · exact ENERGY_pos
  · exact POWER_pos
  · exact PRESSURE_pos
  · exact DENSITY_pos
  · exact FORCE_pos
  · exact DATA_pos

lemma digitChar_isDigit {k : ℕ} (h : k < 10) :
    (Nat.digitChar k).isDigit = true := by
  interval_cases k <;> decide

lemma mem_natCharsAux_isDigit :
    ∀ (fuel n : ℕ) (c : Char), c ∈ natCharsAux fuel n → c.isDigit = true := by
  intro fuel
  induction fuel with
  | zero => intro n c h; simp [natCharsAux] at h
  | succ f ih =>
    intro n c h
    cases n with
    | zero => simp [natCharsAux] at h
    | succ m =>
      simp only [natCharsAux] at h
      rcases List.mem_append.mp h with h | h
      · exact ih _ _ h
      · rw [List.mem_singleton.mp h]
        exact digitChar_isDigit (Nat.mod_lt _ (by norm_num))

lemma mem_natChars_isDigit {n : ℕ} {c : Char} (h : c ∈ natChars n) :
    c.isDigit = true := by
  unfold natChars at h
  split at h
  · rw [List.mem_singleton.mp h]; decide
  · exact mem_natCharsAux_isDigit _ _ _ h

lemma mem_padZeros_isDigit {p : ℕ} {n : ℕ} {c : Char}
    (h : c ∈ padZeros p (natChars n)) : c.isDigit = true := by
  unfold padZeros at h
  rcases List.mem_append.mp h with h | h
  · rw [List.eq_of_mem_replicate h]; decide
  · exact mem_natChars_isDigit h

lemma mem_rstripC {c a : Char} {l : List Char} (h : a ∈ rstripC c l) :
    a ∈ l := by
  induction l with
  | nil => simp [rstripC] at h
  | cons b t ih =>
    simp only [rstripC] at h
    split at h
    · simp at h
    · rcases List.mem_cons.mp h with h | h
      · exact h ▸ List.mem_cons_self _ _
      · exact List.mem_cons_of_mem _ (ih h)

lemma getLast?_rstripC (c : Char) (l : List Char) :
    (rstripC c l).getLast? ≠ some c := by
  induction l with
  | nil => simp [rstripC]
  | cons b t ih =>
    simp only [rstripC]
    split
    · simp
    · rename_i hcond
      cases hr : rstripC c t with
      | nil =>
        rw [hr] at hcond
        have hb : ¬(b == c) = true := by
          intro hbc
          exact hcond (by simp [hbc])
        simp only [hr, List.getLast?_singleton]
        intro hsome
        exact hb (by simp [Option.some.inj hsome])
      | cons x xs =>
        rw [List.getLast?_cons_cons, ← hr]
        exact ih

lemma rstripC_append_pos {c : Char} {m : List Char} (h : rstripC c m ≠ [])
    (l : List Char) : rstripC c (l ++ m) = l ++ rstripC c m := by
  induction l with
  | nil => rfl
  | cons a t ih =>
    show rstripC c (a :: (t ++ m)) = a :: (t ++ rstripC c m)
    simp only [rstripC, ih]
    rw [if_neg]
    intro hcond
    have h1 : (t ++ rstripC c m).isEmpty = true :=
      (Bool.and_eq_true _ _ |>.mp hcond).1
    rcases List.append_eq_nil.mp (by simpa [List.isEmpty_iff] using h1)
      with ⟨_, h2⟩
    exact h h2

lemma rstripC_append_nil {c : Char} {m : List Char} (h : rstripC c m = [])
    (l : List Char) : rstripC c (l ++ m) = rstripC c l := by
  induction l with
  | nil => simp [h, rstripC]
  | cons a t ih =>
    show rstripC c (a :: (t ++ m)) = rstripC c (a :: t)
    simp only [rstripC, ih]

lemma rstripC_eq_self {c : Char} {l : List Char} (h : l.getLast? ≠ some c) :
    rstripC c l = l := by
  induction l with
  | nil => rfl
  | cons a t ih =>
    cases t with
    | nil =>
      have ha : ¬(a == c) = true := by
        intro hac
        exact h (by simp [List.getLast?_singleton, eq_of_beq hac])
      simp [rstripC, ha]
    | cons b t2 =>
      rw [List.getLast?_cons_cons] at h
      have ih2 := ih h
      show (if ((rstripC c (b :: t2)).isEmpty && a == c) = true then []
        else a :: rstripC c (b :: t2)) = a :: b :: t2
      rw [ih2, if_neg (by simp)]

lemma getLast?_append_right {l m : List Char} (h : m ≠ []) :
    (l ++ m).getLast? = m.getLast? := by
  induction l with
  | nil => rfl
  | cons a t ih =>
    show (a :: (t ++ m)).getLast? = m.getLast?
    cases ht : t ++ m with
    | nil =>
      rcases List.append_eq_nil.mp ht with ⟨_, h2⟩
      exact absurd h2 h
    | cons x xs =>
      rw [List.getLast?_cons_cons, ← ht, ih]

lemma getLast?_mem {l : List Char} {a : Char} (h : l.getLast? = some a) :
    a ∈ l := by
  induction l with
  | nil => simp at h
  | cons b t ih =>
    cases t with
    | nil =>
      rw [List.getLast?_singleton] at h
      exact (Option.some.inj h) ▸ List.mem_cons_self _ _
    | cons x xs =>
      rw [List.getLast?_cons_cons] at h
      exact List.mem_cons_of_mem _ (ih h)

lemma stripTrailing_wf {S I F : List Char}
    (hS : ∀ c ∈ S, c = '-') (hI : ∀ c ∈ I, c.isDigit = true)
    (hF : ∀ c ∈ F, c.isDigit = true) :
    (∀ c ∈ stripTrailing (S ++ I ++ '.' :: F),
      c.isDigit = true ∨ c = '-' ∨ c = '.') ∧
    (stripTrailing (S ++ I ++ '.' :: F)).getLast? ≠ some '.' ∧
    ((stripTrailing (S ++ I ++ '.' :: F)).contains '.' = true →
      (stripTrailing (S ++ I ++ '.' :: F)).getLast? ≠ some '0') := by
  have hdot : '.' ∈ S ++ I ++ '.' :: F :=
    List.mem_append.mpr (Or.inr (List.mem_cons_self _ _))
  have hcont : (S ++ I ++ '.' :: F).contains '.' = true :=
    List.elem_iff.mpr hdot
  have hst : stripTrailing (S ++ I ++ '.' :: F) =
      rstripC '.' (rstripC '0' (S ++ I ++ '.' :: F)) := by
    unfold stripTrailing
    rw [if_pos hcont]
  by_cases hR : rstripC '0' F = []
  · -- every fraction digit is a trailing zero: the dot is stripped as well
    have hB1 : rstripC '0' ('.' :: F) = ['.'] := by
      rw [show ('.' :: F) = ['.'] ++ F from rfl, rstripC_append_nil hR]
      decide
    have hB2 : rstripC '0' (S ++ I ++ '.' :: F) = (S ++ I) ++ ['.'] := by
      rw [rstripC_append_pos
        (by rw [hB1]; exact List.cons_ne_nil _ _) (S ++ I), hB1]
    have hSI_last : ∀ e, (S ++ I).getLast? = some e →
        e.isDigit = true ∨ e = '-' := by
      intro e he
      rcases List.mem_append.mp (getLast?_mem he) with h | h
      · exact Or.inr (hS e h)
      · exact Or.inl (hI e h)
    have hSI_ne_dot : (S ++ I).getLast? ≠ some '.' := by
      cases hg : (S ++ I).getLast? with
      | none => simp
      | some e =>
        rcases hSI_last e hg with h | h
        · simp only [ne_eq, Option.some.injEq]
          intro hce
          subst hce
          exact absurd h (by decide)
        · simp only [ne_eq, Option.some.injEq]
          intro hce
          subst hce
          exact absurd h (by decide)
    have hfinal : stripTrailing (S ++ I ++ '.' :: F) = S ++ I := by
      rw [hst, hB2, rstripC_append_nil (by decide) (S ++ I),
        rstripC_eq_self hSI_ne_dot]
    refine ⟨?_, ?_, ?_⟩
    · intro c hc
      rw [hfinal] at hc
      rcases List.mem_append.mp hc with h | h
      · exact Or.inr (Or.inl (hS c h))
      · exact Or.inl (hI c h)
    · rw [hfinal]
      exact hSI_ne_dot
    · intro hcont2
      rw [hfinal] at hcont2
      have hmem := List.elem_iff.mp hcont2
      rcases List.mem_append.mp hmem with h | h
      · exact absurd (hS _ h) (by decide)
      · exact absurd (hI _ h) (by decide)
  · -- a nonzero fraction digit survives: the dot is kept
    have hA1 : rstripC '0' ('.' :: F) = '.' :: rstripC '0' F := by
      have h := rstripC_append_pos (c := '0') hR ['.']
      simpa using h
    have hA2 : rstripC '0' (S ++ I ++ '.' :: F) =
        (S ++ I) ++ ('.' :: rstripC '0' F) := by
      rw [rstripC_append_pos
        (by rw [hA1]; exact List.cons_ne_nil _ _) (S ++ I), hA1]
    obtain ⟨d, hd⟩ : ∃ d, (rstripC '0' F).getLast? = some d := by
      cases hg : (rstripC '0' F).getLast? with
      | none => exact absurd (List.getLast?_eq_none_iff.mp hg) hR
      | some d => exact ⟨d, rfl⟩
    have hd_digit : d.isDigit = true := hF d (mem_rstripC (getLast?_mem hd))
    have hd_ne_dot : d ≠ '.' := by
      intro h
      rw [h] at hd_digit
      exact absurd hd_digit (by decide)
    have hd_ne_zero : d ≠ '0' := by
      intro h
      rw [h] at hd
      exact getLast?_rstripC '0' F hd
    have hlast2 : ((S ++ I) ++ ('.' :: rstripC '0' F)).getLast? = some d := by
      rw [getLast?_append_right (List.cons_ne_nil _ _),
        show ('.' :: rstripC '0' F) = ['.'] ++ rstripC '0' F from rfl,
        getLast?_append_right hR, hd]
    have hfinal : stripTrailing (S ++ I ++ '.' :: F) =
        (S ++ I) ++ ('.' :: rstripC '0' F) := by
      rw [hst, hA2, rstripC_eq_self (by rw [hlast2]; simp [hd_ne_dot])]
    refine ⟨?_, ?_, ?_⟩
    · intro c hc
      rw [hfinal] at hc
      rcases List.mem_append.mp hc with h | h
      · rcases List.mem_append.mp h with h | h
        · exact Or.inr (Or.inl (hS c h))
        · exact Or.inl (hI c h)
      · rcases List.mem_cons.mp h with h | h
        · exact Or.inr (Or.inr h)
        · exact Or.inl (hF c (mem_rstripC h))
    · rw [hfinal, hlast2]
      simp [hd_ne_dot]
    · intro _
      rw [hfinal, hlast2]
      simp [hd_ne_zero]

lemma formatNumberL_wf (n : ℤ) (p : ℕ) (hp : p ≠ 0) :
    wellFormattedOutput (String.mk (formatNumberL n p)) = true := by
  have hS : ∀ c ∈ (if n < 0 then ['-'] else ([] : List Char)), c = '-' := by
    intro c hc
    split at hc
    · exact List.mem_singleton.mp hc
    · cases hc
  have hwf := stripTrailing_wf (F := padZeros p (natChars (n.natAbs % 10 ^ p)))
    hS (fun c hc => mem_natChars_isDigit (n := n.natAbs / 10 ^ p) hc)
    (fun c hc => mem_padZeros_isDigit hc)
  have hfix : fixedChars n p =
      (if n < 0 then ['-'] else []) ++ natChars (n.natAbs / 10 ^ p) ++
        '.' :: padZeros p (natChars (n.natAbs % 10 ^ p)) := by
    unfold fixedChars
    rw [if_neg hp]
  obtain ⟨h1, h2, h3⟩ := hwf
  unfold wellFormattedOutput formatNumberL
  rw [hfix]
  have htl : ∀ l : List Char, (String.mk l).toList = l := fun _ => rfl
  rw [htl]
  rw [Bool.and_eq_true, Bool.and_eq_true]
  refine ⟨⟨?_, ?_⟩, ?_⟩
  · rw [List.all_eq_true]
    intro c hc
    rcases h1 c hc with h | h | h
    · simp [h]
    · subst h; decide
    · subst h; decide
  · rw [Bool.not_eq_true', beq_eq_false_iff_ne]
    exact h2
  · cases hc : (stripTrailing ((if n < 0 then ['-'] else []) ++
        natChars (n.natAbs / 10 ^ p) ++
        '.' :: padZeros p (natChars (n.natAbs % 10 ^ p)))).contains '.' with
    | false => simp [hc]
    | true =>
      simp only [hc, Bool.not_true, Bool.false_or, Bool.not_eq_true',
        beq_eq_false_iff_ne]
      exact h3 hc

lemma roundHalfEvenInt_intCast (n : ℤ) : roundHalfEvenInt ((n : ℚ)) = n := by
  unfold roundHalfEvenInt
  rw [Int.floor_intCast]
  norm_num

lemma parseValue_eval {raw : String} {p : PyParsed}
    (h : pyFloatRaw raw = some p) :
    parseValue raw = some (interpretParsed p) := by
  unfold parseValue
  rw [h]
  rfl

lemma format_number_scaled {x : ℚ} {n : ℤ} (h : x * 10 ^ 8 = (n : ℚ)) :
    format_number x = String.mk (formatNumberL n 8) := by
  unfold format_number
  rw [h, roundHalfEvenInt_intCast]

lemma input_signature_inj {category from_unit to_unit raw raw2 : String}
    (h : input_signature category from_unit to_unit raw =
      input_signature category from_unit to_unit raw2) : raw = raw2 := by
  unfold input_signature at h
  have hd := congrArg String.data h
  simp only [String.data_append] at hd
  have hd2 := List.append_cancel_left hd
  cases raw
  cases raw2
  exact congrArg String.mk hd2

end Lemmas

/-- C1: for every non-Temperature category and every pair of units in that
category's factor table, converting a value x from u1 to u2 returns exactly
x * factorToBase(u1) / factorToBase(u2): the value is normalized to the
base unit first and then divided by the target factor. -/
theorem C1_linear_conversion_formula :
    ∀ category ∈ linearCategories, ∀ (u1 u2 : String) (f1 f2 x : ℚ),
      lookupFactor (factorTableOf category) u1 = some f1 →
      lookupFactor (factorTableOf category) u2 = some f2 →
      convert category x u1 u2 = some (x * f1 / f2) := by
  intro category hc u1 u2 f1 f2 x h1 h2
  rw [convert_linear_eq hc, convert_via_factors_eq h1 h2]

/-- Witness for C1 at a concrete input: kilometer to meter. -/
theorem C1_linear_conversion_formula_witness :
    convert "length" 1 "Kilometer (km)" "Meter (m)" = some (1 * 1000 / 1) :=
  C1_linear_conversion_formula "length" (by decide) "Kilometer (km)"
    "Meter (m)" 1000 1 1 rfl rfl

/-- C2: temperature conversion between distinct units applies exactly the
corresponding affine formula of the six ordered pairs, and in particular
0 °C is 32 °F, 100 °C is 212 °F, and 0 °C is 273.15 K. -/
theorem C2_temperature_affine_formulas : ∀ x : ℚ,
    convert "temperature" x "Celsius (°C)" "Fahrenheit (°F)" =
      some (x * 9 / 5 + 32) ∧
    convert "temperature" x "Fahrenheit (°F)" "Celsius (°C)" =
      some ((x - 32) * 5 / 9) ∧
    convert "temperature" x "Celsius (°C)" "Kelvin (K)" =
      some (x + 273.15) ∧
    convert "temperature" x "Kelvin (K)" "Celsius (°C)" =
      some (x - 273.15) ∧
    convert "temperature" x "Fahrenheit (°F)" "Kelvin (K)" =
      some ((x - 32) * 5 / 9 + 273.15) ∧
    convert "temperature" x "Kelvin (K)" "Fahrenheit (°F)" =
      some ((x - 273.15) * 9 / 5 + 32) ∧
    convert "temperature" 0 "Celsius (°C)" "Fahrenheit (°F)" = some 32 ∧
    convert "temperature" 100 "Celsius (°C)" "Fahrenheit (°F)" = some 212 ∧
    convert "temperature" 0 "Celsius (°C)" "Kelvin (K)" = some 273.15 := by
  intro x
  refine ⟨rfl, rfl, rfl, rfl, rfl, rfl, ?_, ?_, ?_⟩
  · show some ((0 : ℚ) * 9 / 5 + 32) = some 32
    exact congrArg some (by norm_num)
  · show some ((100 : ℚ) * 9 / 5 + 32) = some 212
    exact congrArg some (by norm_num)
  · show some ((0 : ℚ) + 273.15) = some 273.15
    exact congrArg some (by norm_num)

/-- C3 counterexample: "Rankine (°R)" is not a member of the temperature
unit set, yet converting to it returns a numeric result (the input value,
via the identity fallback) instead of failing. -/
theorem C3_invalid_unit_counterexample :
    "Rankine (°R)" ∉ unitsFor "temperature" ∧
    convert "temperature" 5 "Celsius (°C)" "Rankine (°R)" = some 5 :=
  ⟨by decide, rfl⟩

/-- C3 amended: for every non-Temperature category, convert fails (by the
failed dictionary lookup) when the from- or to-unit is missing from the
factor table; for Temperature, any pair whose lowercased labels match none
of the six keyword combinations — including invalid units — falls into the
identity fallback and returns the value unchanged. -/
theorem C3_invalid_unit_amended :
    (∀ category ∈ linearCategories, ∀ (u1 u2 : String) (x : ℚ),
      lookupFactor (factorTableOf category) u1 = none ∨
        lookupFactor (factorTableOf category) u2 = none →
      convert category x u1 u2 = none) ∧
    (∀ (x : ℚ) (from_unit to_unit : String),
      (strContains (strLower from_unit) "celsius" &&
        strContains (strLower to_unit) "fahrenheit") = false →
      (strContains (strLower from_unit) "fahrenheit" &&
        strContains (strLower to_unit) "celsius") = false →
      (strContains (strLower from_unit) "celsius" &&
        strContains (strLower to_unit) "kelvin") = false →
      (strContains (strLower from_unit) "kelvin" &&
        strContains (strLower to_unit) "celsius") = false →
      (strContains (strLower from_unit) "fahrenheit" &&
        strContains (strLower to_unit) "kelvin") = false →
      (strContains (strLower from_unit) "kelvin" &&
        strContains (strLower to_unit) "fahrenheit") = false →
      convert "temperature" x from_unit to_unit = some x) := by
  constructor
  · intro category hc u1 u2 x h
    rw [convert_linear_eq hc]
    unfold convert_via_factors
    rcases h with h | h
    · rw [h]
    · cases h1 : lookupFactor (factorTableOf category) u1 <;> rw [h]
  · intro x from_unit to_unit h1 h2 h3 h4 h5 h6
    show some (convert_temperature x from_unit to_unit) = some x
    unfold convert_temperature
    simp only [h1, h2, h3, h4, h5, h6, Bool.false_eq_true, if_false]

/-- Witness for C3's amended statement at concrete inputs: an unknown
length unit fails, an unknown temperature unit returns the value. -/
theorem C3_invalid_unit_amended_witness :
    convert "length" 0 "Bogus" "Meter (m)" = none ∧
    convert "temperature" 5 "Celsius (°C)" "Rankine (°R)" = some 5 :=
  ⟨C3_invalid_unit_amended.1 "length" (by decide) "Bogus" "Meter (m)" 0
    (Or.inl rfl),
   C3_invalid_unit_amended.2 5 "Celsius (°C)" "Rankine (°R)"
     rfl rfl rfl rfl rfl rfl⟩

/-- C4 counterexample: the words inf and nan are accepted by the parser
and produce non-finite values, instead of failing as the claim requires. -/
theorem C4_parser_counterexample :
    parseValue "inf" = some PyFloat.inf ∧
    parseValue "nan" = some PyFloat.nan := by
  constructor <;> decide

/-- C4 amended: parse trims surrounding whitespace, removes every comma,
then applies Python float syntax; finite decimals and scientific notation
are accepted (with underscores allowed between digits), the empty string,
non-numeric text and doubled dots are rejected, but the words
inf/infinity/nan are also accepted and yield non-finite values rather than
failing. -/
theorem C4_parser_amended :
    parseValue "1,234.5" = some (.finite 1234.5) ∧
    parseValue "1.2e3" = some (.finite 1200) ∧
    parseValue "" = none ∧
    parseValue "abc" = none ∧
    parseValue "1.2.3" = none ∧
    parseValue "inf" = some .inf ∧
    parseValue "-Infinity" = some .negInf ∧
    parseValue "nan" = some .nan ∧
    parseValue "1_0" = some (.finite 10) ∧
    parseValue "  -3.4E-2 " = some (.finite (-0.034)) := by
  refine ⟨?_, ?_, by decide, by decide, by decide, by decide, by decide,
    by decide, ?_, ?_⟩
  · rw [parseValue_eval (p := .fin false 12345 1 0) (by decide)]
    simp only [interpretParsed]
    norm_num
  · rw [parseValue_eval (p := .fin false 12 1 3) (by decide)]
    simp only [interpretParsed]
    norm_num
  · rw [parseValue_eval (p := .fin false 10 0 0) (by decide)]
    simp only [interpretParsed]
    norm_num
  · rw [parseValue_eval (p := .fin true 34 1 (-2)) (by decide)]
    simp only [interpretParsed]
    norm_num

/-- C5: the formatter rounds to 8 decimal digits, renders fixed-point
(its output never contains an exponent marker, only digits, a minus sign
and a dot), strips trailing zeros and a then-trailing dot, and in
particular formats 3.5 as "3.5", 4 as "4", 0.1+0.2 as "0.3", and handles
negatives. -/
theorem C5_formatting :
    (∀ x : ℚ, wellFormattedOutput (format_number x) = true) ∧
    format_number (7 / 2) = "3.5" ∧
    format_number 4 = "4" ∧
    format_number (0.1 + 0.2) = "0.3" ∧
    format_number (-7 / 2) = "-3.5" := by
  refine ⟨?_, ?_, ?_, ?_, ?_⟩
  · intro x
    exact formatNumberL_wf (roundHalfEvenInt (x * 10 ^ 8)) 8 (by norm_num)
  · rw [format_number_scaled (n := 350000000) (by norm_num)]
    decide
  · rw [format_number_scaled (n := 400000000) (by norm_num)]
    decide
  · rw [format_number_scaled (n := 30000000) (by norm_num)]
    decide
  · rw [format_number_scaled (n := -350000000) (by norm_num)]
    decide

/-- C6: the registry's factor tables reproduce the factor sequences of the
spec's §4.1 tables in order, every category's unit list is non-empty and
lists the table's keys in insertion order, and every factor is strictly
positive. -/
theorem C6_registry_tables :
    (linearCategories.map (fun c => (c, (factorTableOf c).map Prod.snd)) =
      spec_section41_factors) ∧
    (∀ category ∈ allCategories, unitsFor category ≠ []) ∧
    (∀ category ∈ linearCategories,
      unitsFor category = (factorTableOf category).map Prod.fst) ∧
    (∀ category ∈ linearCategories,
      ∀ p ∈ factorTableOf category, (0 : ℚ) < p.2) := by
  refine ⟨rfl, ?_, ?_, factorTable_pos⟩
  · intro category hc
    fin_cases hc <;> decide
  · intro category hc
    fin_cases hc <;> rfl

/-- Witness for C6 at concrete inputs: the length category is non-empty,
its unit order is the table's key order, and the meter factor is positive. -/
theorem C6_registry_tables_witness :
    unitsFor "length" ≠ [] ∧
    unitsFor "length" = LENGTH_TO_M.map Prod.fst ∧
    (0 : ℚ) < ("Meter (m)", (1 : ℚ)).2 :=
  ⟨C6_registry_tables.2.1 "length" (by decide),
   C6_registry_tables.2.2.1 "length" (by decide),
   C6_registry_tables.2.2.2 "length" (by decide) ("Meter (m)", 1)
     (List.mem_cons_self _ _)⟩

/-- C7: converting any value from a unit to itself is the exact identity,
for every unit of every category including the three temperature units. -/
theorem C7_identity : ∀ category ∈ allCategories, ∀ u ∈ unitsFor category,
    ∀ x : ℚ, convert category x u u = some x := by
  intro category hc
  fin_cases hc
  · intro u hu x
    have hu2 : u ∈ ["Celsius (°C)", "Fahrenheit (°F)", "Kelvin (K)"] := hu
    fin_cases hu2 <;> rfl
  · intro u hu x
    show convert_via_factors x u u LENGTH_TO_M = some x
    exact convert_via_factors_self LENGTH_pos hu x
  · intro u hu x
    show convert_via_factors x u u MASS_TO_KG = some x
    exact convert_via_factors_self MASS_pos hu x
  · intro u hu x
    show convert_via_factors x u u TIME_TO_S = some x
    exact convert_via_factors_self TIME_pos hu x
  · intro u hu x
    show convert_via_factors x u u AREA_TO_M2 = some x
    exact convert_via_factors_self AREA_pos hu x
  · intro u hu x
    show convert_via_factors x u u VOLUME_TO_M3 = some x
    exact convert_via_factors_self VOLUME_pos hu x
  · intro u hu x
    show convert_via_factors x u u SPEED_TO_MS = some x
    exact convert_via_factors_self SPEED_pos hu x
  · intro u hu x
    show convert_via_factors x u u ENERGY_TO_J = some x
    exact convert_via_factors_self ENERGY_pos hu x
  · intro u hu x
    show convert_via_factors x u u POWER_TO_W = some x
    exact convert_via_factors_self POWER_pos hu x
  · intro u hu x
    show convert_via_factors x u u PRESSURE_TO_PA = some x
    exact convert_via_factors_self PRESSURE_pos hu x
  · intro u hu x
    show convert_via_factors x u u DENSITY_TO_KGM3 = some x
    exact convert_via_factors_self DENSITY_pos hu x
  · intro u hu x
    show convert_via_factors x u u FORCE_TO_N = some x
    exact convert_via_factors_self FORCE_pos hu x
  · intro u hu x
    show convert_via_factors x u u DATA_TO_B = some x
    exact convert_via_factors_self DATA_pos hu x

/-- Witness for C7 at concrete inputs: Kelvin to Kelvin and mile to mile. -/
theorem C7_identity_witness :
    convert "temperature" 21 "Kelvin (K)" "Kelvin (K)" = some 21 ∧
    convert "length" 3 "Mile (mi)" "Mile (mi)" = some 3 :=
  ⟨C7_identity "temperature" (by decide) "Kelvin (K)" (by decide) 21,
   C7_identity "length" (by decide) "Mile (mi)" (by decide) 3⟩

/-- C8: for every linear category and every pair of its units, converting
x from u1 to u2 and the result back from u2 to u1 returns exactly x (in
the exact rational arithmetic of this model). -/
theorem C8_round_trip :
    ∀ category ∈ linearCategories, ∀ (u1 u2 : String) (f1 f2 x : ℚ),
      lookupFactor (factorTableOf category) u1 = some f1 →
      lookupFactor (factorTableOf category) u2 = some f2 →
      convert category x u1 u2 = some (x * f1 / f2) ∧
      convert category (x * f1 / f2) u2 u1 = some x := by
  intro category hc u1 u2 f1 f2 x h1 h2
  have hf1 : f1 ≠ 0 :=
    ne_of_gt (factorTable_pos category hc _ (lookupFactor_mem h1))
  have hf2 : f2 ≠ 0 :=
    ne_of_gt (factorTable_pos category hc _ (lookupFactor_mem h2))
  constructor
  · rw [convert_linear_eq hc, convert_via_factors_eq h1 h2]
  · rw [convert_linear_eq hc, convert_via_factors_eq h2 h1]
    congr 1
    rw [div_mul_cancel₀ _ hf2, mul_div_cancel_right₀ _ hf1]

/-- Witness for C8 at concrete inputs: 100 hours to minutes and back. -/
theorem C8_round_trip_witness :
    convert "time" 100 "Hour (h)" "Minute (min)" = some (100 * 3600 / 60) ∧
    convert "time" (100 * 3600 / 60) "Minute (min)" "Hour (h)" = some 100 :=
  C8_round_trip "time" (by decide) "Hour (h)" "Minute (min)" 3600 60 100
    rfl rfl

/-- C9: whenever the current input signature differs from the stored one,
the stored result and formula are cleared (so after a successful convert,
any change to the raw text makes the current display empty before the next
convert), and a reset clears result, formula and the remembered
signature from any state. -/
theorem C9_controller_state :
    (∀ (s : SessionState) (signature : String),
      s.last_input_signature ≠ some signature →
      (clear_result_on_input_change s signature).result = "" ∧
      (clear_result_on_input_change s signature).formula = "" ∧
      (clear_result_on_input_change s signature).last_input_signature =
        some signature) ∧
    (∀ (s : SessionState) (category from_unit to_unit raw raw2 : String),
      s.last_input_signature =
        some (input_signature category from_unit to_unit raw) →
      raw ≠ raw2 →
      currentDisplay (clear_result_on_input_change s
        (input_signature category from_unit to_unit raw2)) = none) ∧
    (∀ s : SessionState,
      (resetSession s).result = "" ∧ (resetSession s).formula = "" ∧
      (resetSession s).last_input_signature = none) := by
  refine ⟨?_, ?_, ?_⟩
  · intro s signature h
    simp [clear_result_on_input_change, h]
  · intro s category from_unit to_unit raw raw2 hs hraw
    have hne : s.last_input_signature ≠
        some (input_signature category from_unit to_unit raw2) := by
      rw [hs]
      intro hcontra
      exact hraw (input_signature_inj (Option.some.inj hcontra))
    simp [clear_result_on_input_change, hne, currentDisplay]
  · intro s
    exact ⟨rfl, rfl, rfl⟩

/-- Witness for C9 at a concrete state: a stored result is invalidated by
a raw-text change, and reset clears everything. -/
theorem C9_controller_state_witness :
    currentDisplay (clear_result_on_input_change
      ⟨"1 Kilometer (km) = 1000 Meter (m)", "Formula",
        some (input_signature "length" "Kilometer (km)" "Meter (m)" "1")⟩
      (input_signature "length" "Kilometer (km)" "Meter (m)" "12")) = none ∧
    (resetSession ⟨"r", "f", some "sig"⟩).result = "" ∧
    (resetSession ⟨"r", "f", some "sig"⟩).formula = "" ∧
    (resetSession ⟨"r", "f", some "sig"⟩).last_input_signature = none :=
  ⟨C9_controller_state.2.1
      ⟨"1 Kilometer (km) = 1000 Meter (m)", "Formula",
        some (input_signature "length" "Kilometer (km)" "Meter (m)" "1")⟩
      "length" "Kilometer (km)" "Meter (m)" "1" "12" rfl (by decide),
   C9_controller_state.2.2 ⟨"r", "f", some "sig"⟩⟩

/-- C10: the parser removes every comma anywhere in the input, not only
thousands separators: "1,2" parses to 12 and ",5" parses to 5. -/
theorem C10_comma_removal :
    parseValue "1,2" = some (.finite 12) ∧
    parseValue ",5" = some (.finite 5) ∧
    parseValue "1,,2,," = some (.finite 12) := by
  refine ⟨?_, ?_, ?_⟩
  · rw [parseValue_eval (p := .fin false 12 0 0) (by decide)]
    simp only [interpretParsed]
    norm_num
  · rw [parseValue_eval (p := .fin false 5 0 0) (by decide)]
    simp only [interpretParsed]
    norm_num
  · rw [parseValue_eval (p := .fin false 12 0 0) (by decide)]
    simp only [interpretParsed]
    norm_num

end UnitConverter
